import Mathlib

/-!
Shallow embedding of `train.py` (ControlLyapunovTransformer): the parameter
reconciliation block of `__main__`, the epoch/task scheduling loop of `main`,
and the surrounding orchestration (device checks, evaluation-only mode,
master-only end-of-epoch block), together with theorems about them.
-/

namespace TrainSpec

/-- Values stored in a configuration dictionary (the `params.__dict__` of
train.py): strings, integers, booleans, or Python `None`. -/
inductive Value where
  | str (s : String)
  | int (n : Int)
  | bool (b : Bool)
  | none
  deriving DecidableEq, Repr

/-- A configuration dictionary: an association list from field name to value,
first binding wins (Python dictionaries have unique keys, so this coincides
with dictionary semantics on well-formed inputs). -/
abbrev Dict := List (String × Value)

/-- Dictionary lookup, `d[key]` / `getattr(params, key)`. -/
def lookup : Dict → String → Option Value
  | [], _ => Option.none
  | kv :: d, key => if kv.1 = key then some kv.2 else lookup d key

/-- Python `key in d`. -/
def containsKey (d : Dict) (key : String) : Bool :=
  (lookup d key).isSome

/-- Remove every binding of `key`. -/
def eraseKey : Dict → String → Dict
  | [], _ => []
  | kv :: d, key => if kv.1 = key then eraseKey d key else kv :: eraseKey d key

/-- Python `del d[key]`: raises `KeyError` (modelled as `Option.none`) when
`key` is absent. -/
def delChecked (d : Dict) (key : String) : Option Dict :=
  if containsKey d key then some (eraseKey d key) else Option.none

/-- Replace the value of every binding of `key`, keeping positions. -/
def setEntries : Dict → String → Value → Dict
  | [], _, _ => []
  | kv :: d, key, v => (if kv.1 = key then (key, v) else kv) :: setEntries d key v

/-- Python `d[key] = v` / attribute assignment on `params`. -/
def setVal (d : Dict) (key : String) (v : Value) : Dict :=
  if containsKey d key then setEntries d key v else d ++ [(key, v)]

/-- Read a field expected to hold a string. -/
def getStr (d : Dict) (key : String) : Option String :=
  match lookup d key with
  | some (Value.str s) => some s
  | _ => Option.none

/-- Read a field expected to hold a boolean. -/
def getBool (d : Dict) (key : String) : Option Bool :=
  match lookup d key with
  | some (Value.bool b) => some b
  | _ => Option.none

/-- The experiment-identity fields deleted unconditionally from the snapshot
(train.py lines 213-215). -/
def identityKeys : List String := ["exp_id", "dump_path", "exp_name"]

/-- The fixed per-run exclusion set, deleted from the snapshot only when
present (train.py lines 216-230). -/
def exclusionKeys : List String :=
  ["eval_data", "batch_size_eval", "local_rank", "beam_eval", "beam_size",
   "eval_verbose", "eval_verbose_print", "master_port", "max_len",
   "max_output_len", "lyap_SOS_checker"]

/-- Lines 213-215 of train.py: `del pickled_args["exp_id"]`,
`del pickled_args["dump_path"]`, `del pickled_args["exp_name"]`, each
unguarded, so each raises when its key is absent. -/
def stripIdentity (pickled : Dict) : Option Dict :=
  (delChecked pickled "exp_id").bind fun d1 =>
    (delChecked d1 "dump_path").bind fun d2 =>
      delChecked d2 "exp_name"

/-- Lines 216-230 of train.py: for each key of the exclusion set,
`if key in pickled_args: del pickled_args[key]`. -/
def stripExclusions (pickled : Dict) : Dict :=
  exclusionKeys.foldl (fun d key => if containsKey d key then eraseKey d key else d) pickled

/-- Lines 232-234 of train.py: `for p in params.__dict__: if p in pickled_args:
params.__dict__[p] = pickled_args[p]`. -/
def mergeFromSnapshot : Dict → Dict → Dict
  | [], _ => []
  | kv :: d, pickled =>
    (match lookup pickled kv.1 with
     | some v => (kv.1, v)
     | Option.none => kv) :: mergeFromSnapshot d pickled

/-- The merge stage of reconciliation (train.py lines 211-234): strip the
identity fields (failing if one is absent), strip the exclusion set, then
overwrite shared fields of `params` from the snapshot. -/
def mergedParams (pickled params : Dict) : Option Dict :=
  (stripIdentity pickled).map fun pk => mergeFromSnapshot params (stripExclusions pk)

/-- The body of the reconciliation branch once it is entered (train.py lines
208-241), for a loaded snapshot `pickled` and experiment path `expStr`:
check the pickle file exists, merge, force evaluation-only mode, compute and
check the model-reload path, and rewrite the data-reload fields when an
explicit evaluation-data path was supplied. `isFile` models `os.path.isfile`;
`Option.none` models an uncaught exception (failed assert or `KeyError`). -/
def reconcileCore (isFile : String → Bool) (pickled : Dict) (expStr : String)
    (params : Dict) : Option Dict :=
  if isFile (expStr ++ "/params.pkl") then
    match mergedParams pickled params with
    | Option.none => Option.none
    | some p1 =>
      match getStr (setVal p1 "eval_only" (Value.bool true)) "validation_metrics" with
      | Option.none => Option.none
      | some vm =>
        if isFile (expStr ++ "/best-" ++ vm ++ ".pth") then
          match getStr (setVal (setVal p1 "eval_only" (Value.bool true)) "reload_model"
              (Value.str (expStr ++ "/best-" ++ vm ++ ".pth"))) "eval_data" with
          | Option.none => Option.none
          | some ed =>
            if ed = "" then
              some (setVal (setVal p1 "eval_only" (Value.bool true)) "reload_model"
                (Value.str (expStr ++ "/best-" ++ vm ++ ".pth")))
            else
              match getStr (setVal (setVal (setVal p1 "eval_only" (Value.bool true))
                  "reload_model" (Value.str (expStr ++ "/best-" ++ vm ++ ".pth")))
                  "eval_size" Value.none) "tasks" with
              | Option.none => Option.none
              | some ts =>
                some (setVal (setVal (setVal (setVal p1 "eval_only" (Value.bool true))
                  "reload_model" (Value.str (expStr ++ "/best-" ++ vm ++ ".pth")))
                  "eval_size" Value.none) "reload_data"
                  (Value.str (ts ++ "," ++ ed ++ "," ++ ed)))
        else Option.none
  else Option.none

/-- The full reconciliation block of `__main__` (train.py lines 206-241),
entered only when `params.eval_only and params.eval_from_exp != ""`.
`snapshot` models `pickle.load(...)`'s `__dict__` keyed by the pickle path. -/
def reconcile (isFile : String → Bool) (snapshot : String → Dict) (params : Dict) :
    Option Dict :=
  match getBool params "eval_only", getStr params "eval_from_exp" with
  | some true, some expStr =>
    if expStr = "" then some params
    else reconcileCore isFile (snapshot (expStr ++ "/params.pkl")) expStr params
  | some false, _ => some params
  | _, _ => Option.none

/-- Split a character list at commas, accumulating the current field. -/
def splitCommaAux : List Char → List Char → List String
  | [], acc => [String.mk acc.reverse]
  | c :: cs, acc =>
    if c == ',' then String.mk acc.reverse :: splitCommaAux cs []
    else splitCommaAux cs (c :: acc)

/-- Modelled from the spec: the comma-splitting of a reload-data entry done by
the data-reload parser (src/envs, not part of this repository snapshot), per
the format documented at train.py line 85:
`task1,train_path1,valid_path1,test_path1_1,...`. -/
def splitComma (s : String) : List String :=
  splitCommaAux s.toList []

/-- Reads the reload-data spec of `d` under the documented reload format and
checks that the train split, the valid split, and at least one test path all
point at `ed`. -/
def reloadDataPointsAllSplitsAt (d : Dict) (ed : String) : Bool :=
  match getStr d "reload_data" with
  | some rd =>
    match splitComma rd with
    | _ :: tr :: va :: tests =>
      tr == ed && va == ed && !tests.isEmpty && tests.all (fun t => t == ed)
    | _ => false
  | Option.none => false

/-- Claim C5 as stated, as a predicate on a reconciliation scenario: whenever
reconciliation succeeds and a non-empty evaluation-data path was supplied, the
evaluation sample cap is `None` and every split (train, valid, and test) of
the reload-data spec points at the supplied path. -/
def claimC5 (isFile : String → Bool) (snapshot : String → Dict) (params : Dict) : Prop :=
  ∀ merged ed, reconcile isFile snapshot params = some merged →
    getStr params "eval_data" = some ed → ed ≠ "" →
    lookup merged "eval_size" = some Value.none ∧
    reloadDataPointsAllSplitsAt merged ed = true

/-- Trace events of the inner training loop (train.py lines 174-180): the two
possible per-task work units and the bookkeeping call `trainer.iter()`. -/
inductive Event where
  | export_data (task : String)
  | enc_dec_step (task : String)
  | iter
  deriving DecidableEq, Repr

/-- The trainer counters the scheduling loop reads and advances: the work-unit
counter `trainer.n_equations`, the global step counter, and the number of
permutations drawn so far by `np.random.permutation`. -/
structure TrainerState where
  n_equations : Nat
  n_total_iter : Nat
  draws : Nat
  deriving DecidableEq, Repr

/-- Static inputs of the scheduling loop: the parsed task list `params.tasks`,
`params.epoch_size`, `params.export_data`, the number of work units one
`trainer.iter()` adds to the counter, and the stream of index permutations
returned by successive `np.random.permutation(len(params.tasks))` calls. -/
structure SchedCfg where
  tasks : List String
  epoch_size : Nat
  export_data : Bool
  iterDelta : Nat
  permStream : Nat → List Nat

/-- The per-task work unit of one inner step (train.py lines 176-179):
`trainer.export_data(task)` when exporting, else `trainer.enc_dec_step(task)`. -/
def workUnit (ed : Bool) (task : String) : Event :=
  if ed then Event.export_data task else Event.enc_dec_step task

/-- Modelled from the spec: `trainer.iter()` (src/trainer.py is not part of
this repository snapshot) advances the global step counter and, per the
external trainer's contract, increments the work-unit counter, here by
`delta` units. -/
def iterState (delta : Nat) (st : TrainerState) : TrainerState :=
  { st with n_equations := st.n_equations + delta, n_total_iter := st.n_total_iter + 1 }

/-- The for-loop body over a drawn task order (train.py lines 174-180): for
each task in order, one work unit followed by one `trainer.iter()`. Returns
the final trainer state and the emitted event trace. -/
def runTasks (ed : Bool) (delta : Nat) : List String → TrainerState → TrainerState × List Event
  | [], st => (st, [])
  | t :: ts, st =>
    let rest := runTasks ed delta ts (iterState delta st)
    (rest.1, workUnit ed t :: Event.iter :: rest.2)

/-- The event trace the for-loop of one inner step emits for a given task
order: exactly one work unit then one `iter` per task, in order. -/
def taskTrace (ed : Bool) : List String → List Event
  | [] => []
  | t :: ts => workUnit ed t :: Event.iter :: taskTrace ed ts

/-- The task order of the `k`-th draw (train.py lines 174-175):
`np.random.permutation(len(params.tasks))` mapped through `params.tasks`. -/
def drawnOrder (tasks : List String) (perms : Nat → List Nat) (k : Nat) : List String :=
  (perms k).map (fun i => tasks.getD i "")

/-- One inner step of the while loop (train.py lines 173-180): draw the next
permutation, then run the for-loop over it. -/
def innerStep (cfg : SchedCfg) (st : TrainerState) : TrainerState × List Event :=
  runTasks cfg.export_data cfg.iterDelta (drawnOrder cfg.tasks cfg.permStream st.draws)
    { st with draws := st.draws + 1 }

/-- The inner while loop (train.py line 171): repeat inner steps while
`trainer.n_equations < trainer.epoch_size`. Fuel-indexed; `Option.none` means
the loop did not exit within `fuel` iterations. -/
def whileLoop (cfg : SchedCfg) : Nat → TrainerState → Option (TrainerState × List Event)
  | 0, st =>
    if st.n_equations < cfg.epoch_size then Option.none else some (st, [])
  | fuel + 1, st =>
    if st.n_equations < cfg.epoch_size then
      match whileLoop cfg fuel (innerStep cfg st).1 with
      | Option.none => Option.none
      | some (stFin, evs) => some (stFin, (innerStep cfg st).2 ++ evs)
    else some (st, [])

/-- One epoch body (train.py lines 169-181): reset the work-unit counter to
zero, then run the inner while loop. -/
def runEpoch (cfg : SchedCfg) (fuel : Nat) (st : TrainerState) :
    Option (TrainerState × List Event) :=
  whileLoop cfg fuel { st with n_equations := 0 }

/-- A score report: the mapping returned by `evaluator.run_all_evals()`. The
orchestrator never computes with the numeric values, it only forwards them. -/
abbrev Scores := List (String × Int)

/-- Trace events of `main` (train.py lines 135-197). -/
inductive MainEvent where
  | init_distributed_mode
  | init_exp
  | init_signal_handler
  | build_env
  | build_modules
  | build_trainer
  | build_evaluator
  | run_all_evals
  | log_scores (scores : Scores)
  | log_metric (name : String) (value : Int)
  | log_json (scores : Scores)
  | exit_ok
  | epoch_start
  | work (e : Event)
  | save_best_model
  | save_periodic
  | end_epoch
  deriving DecidableEq, Repr

/-- Result of a `main` run: normal completion with its trace, a fatal
assertion failure with the trace up to the failure, or fuel exhaustion of the
inner loop. -/
inductive RunResult where
  | ok (trace : List MainEvent)
  | fatal (trace : List MainEvent)
  | diverged
  deriving DecidableEq, Repr

/-- Static inputs of `main`: device flags (train.py lines 143-147), mode
flags, epoch budget, master flag, scheduling inputs, and the score report
returned by the `k`-th epoch's `run_all_evals` call. -/
structure MainCfg where
  cpu : Bool
  multi_gpu : Bool
  cuda_available : Bool
  eval_only : Bool
  max_epoch : Nat
  is_master : Bool
  sched : SchedCfg
  evalScores : Nat → Scores

/-- The device assertions of `main` (train.py lines 143-147): under
`params.cpu`, `assert not params.multi_gpu`; otherwise
`assert torch.cuda.is_available()`. -/
def checkDevice (cfg : MainCfg) : Bool :=
  if cfg.cpu then !cfg.multi_gpu else cfg.cuda_available

/-- Events emitted before the device check (train.py lines 139-141). -/
def prologue : List MainEvent :=
  [MainEvent.init_distributed_mode, MainEvent.init_exp, MainEvent.init_signal_handler]

/-- Environment and model construction (train.py lines 151-154), reached only
after the device check passes. -/
def builds : List MainEvent :=
  [MainEvent.build_env, MainEvent.build_modules, MainEvent.build_trainer,
   MainEvent.build_evaluator]

/-- One human-readable log line per metric (train.py lines 159-160, 190-191). -/
def metricLines (scores : Scores) : List MainEvent :=
  scores.map (fun kv => MainEvent.log_metric kv.1 kv.2)

/-- The evaluation-only branch (train.py lines 157-162): one `run_all_evals`,
per-metric lines, one structured `__log__` line with the full mapping, then
`exit()`. -/
def evalOnlyTrace (scores : Scores) : List MainEvent :=
  MainEvent.run_all_evals :: metricLines scores ++
    [MainEvent.log_json scores, MainEvent.exit_ok]

/-- The master-only end-of-epoch block (train.py lines 185-197):
`run_all_evals`, raw score log, per-metric lines, structured line,
`save_best_model`, `save_periodic`, `end_epoch`, in source order. -/
def masterBlock (scores : Scores) : List MainEvent :=
  MainEvent.run_all_evals :: MainEvent.log_scores scores :: metricLines scores ++
    MainEvent.log_json scores ::
      [MainEvent.save_best_model, MainEvent.save_periodic, MainEvent.end_epoch]

/-- One iteration of the training for-loop (train.py lines 165-197): one epoch
of inner steps, then the end-of-epoch block on the master process only. `k` is
the epoch index, used to select that epoch's score report. -/
def epochBody (cfg : MainCfg) (fuel : Nat) (st : TrainerState) (k : Nat) :
    Option (TrainerState × List MainEvent) :=
  match runEpoch cfg.sched fuel st with
  | Option.none => Option.none
  | some (st', evs) =>
    some (st', MainEvent.epoch_start :: evs.map MainEvent.work ++
      (if cfg.is_master then masterBlock (cfg.evalScores k) else []))

/-- The training for-loop (train.py line 165): `n` remaining epochs starting
at epoch index `k`. -/
def trainEpochs (cfg : MainCfg) (fuel : Nat) : Nat → Nat → TrainerState → Option (List MainEvent)
  | _, 0, _ => some []
  | k, n + 1, st =>
    match epochBody cfg fuel st k with
    | Option.none => Option.none
    | some (st', evs) =>
      match trainEpochs cfg fuel (k + 1) n st' with
      | Option.none => Option.none
      | some rest => some (evs ++ rest)

/-- The whole of `main` (train.py lines 135-197): prologue, device check,
construction, then either the evaluation-only branch or the training loop
over `params.max_epoch` epochs. -/
def mainProgram (cfg : MainCfg) (fuel : Nat) (st : TrainerState) : RunResult :=
  if checkDevice cfg then
    if cfg.eval_only then
      RunResult.ok (prologue ++ builds ++ evalOnlyTrace (cfg.evalScores 0))
    else
      match trainEpochs cfg fuel 0 cfg.max_epoch st with
      | Option.none => RunResult.diverged
      | some evs => RunResult.ok (prologue ++ builds ++ evs)
  else RunResult.fatal prologue

/-- Boolean recognizers for counting occurrences of trace events. -/
def isRunAllEvals : MainEvent → Bool
  | MainEvent.run_all_evals => true
  | _ => false

def isLogMetric : MainEvent → Bool
  | MainEvent.log_metric _ _ => true
  | _ => false

def isLogJson : MainEvent → Bool
  | MainEvent.log_json _ => true
  | _ => false

def isEpochStart : MainEvent → Bool
  | MainEvent.epoch_start => true
  | _ => false

def isSaveBest : MainEvent → Bool
  | MainEvent.save_best_model => true
  | _ => false

def isSavePeriodic : MainEvent → Bool
  | MainEvent.save_periodic => true
  | _ => false

def isEndEpoch : MainEvent → Bool
  | MainEvent.end_epoch => true
  | _ => false

/-- A concrete current configuration, used to instantiate the reconciliation
theorems: evaluation-only resume from `/exp/run1` with a fresh data path. -/
def wParams : Dict :=
  [("exp_id", Value.str ""), ("dump_path", Value.str "/cur/dump"),
   ("exp_name", Value.str "debug"), ("eval_only", Value.bool true),
   ("eval_from_exp", Value.str "/exp/run1"), ("eval_data", Value.str "/d/new"),
   ("batch_size", Value.int 32), ("max_len", Value.int 512),
   ("validation_metrics", Value.str "acc"), ("tasks", Value.str "ode_lyapunov"),
   ("eval_size", Value.int 10000), ("reload_data", Value.str ""),
   ("reload_model", Value.str "")]

/-- A concrete persisted snapshot for `/exp/run1`. -/
def wPickled : Dict :=
  [("exp_id", Value.str "old"), ("dump_path", Value.str "/old/dump"),
   ("exp_name", Value.str "run1"), ("eval_only", Value.bool false),
   ("eval_from_exp", Value.str ""), ("eval_data", Value.str "/old/data"),
   ("batch_size", Value.int 64), ("max_len", Value.int 1024),
   ("validation_metrics", Value.str "acc"), ("tasks", Value.str "ode_lyapunov"),
   ("eval_size", Value.int 10000), ("reload_data", Value.str "old_rd"),
   ("reload_model", Value.str "old_rm")]

/-- A snapshot missing the `exp_name` identity field. -/
def wPickledBad : Dict :=
  eraseKey wPickled "exp_name"

/-- A filesystem on which every path exists. -/
def wIsFile : String → Bool := fun _ => true

def wSnapshot : String → Dict := fun _ => wPickled

def wSnapshotBad : String → Dict := fun _ => wPickledBad

/-- A concrete scheduling configuration: two tasks, epoch size three, one work
unit per bookkeeping call, and a fixed draw stream. -/
def wSched : SchedCfg :=
  { tasks := ["t1", "t2"], epoch_size := 3, export_data := false,
    iterDelta := 1, permStream := fun _ => [1, 0] }

/-- A scheduling configuration with an empty task list. -/
def wSchedEmpty : SchedCfg :=
  { tasks := [], epoch_size := 1, export_data := false,
    iterDelta := 1, permStream := fun _ => [] }

def wSt0 : TrainerState := { n_equations := 0, n_total_iter := 0, draws := 0 }

/-- A concrete `main` configuration (training mode, CPU, master process). -/
def wMain : MainCfg :=
  { cpu := true, multi_gpu := false, cuda_available := false, eval_only := false,
    max_epoch := 1, is_master := true, sched := wSched,
    evalScores := fun _ => [("acc", 95)] }

/-- The same configuration in evaluation-only mode. -/
def wMainEval : MainCfg := { wMain with eval_only := true }

/-- The same configuration requesting CPU and multi-GPU together. -/
def wMainBad : MainCfg := { wMain with multi_gpu := true }

/-- The same configuration on a non-master process. -/
def wMainWorker : MainCfg := { wMain with is_master := false }

/-- The merge-stage result for `wPickled` and `wParams` (value of
`mergedParams wPickled wParams`). -/
def wMergedStage : Dict :=
  [("exp_id", Value.str ""), ("dump_path", Value.str "/cur/dump"),
   ("exp_name", Value.str "debug"), ("eval_only", Value.bool false),
   ("eval_from_exp", Value.str ""), ("eval_data", Value.str "/d/new"),
   ("batch_size", Value.int 64), ("max_len", Value.int 512),
   ("validation_metrics", Value.str "acc"), ("tasks", Value.str "ode_lyapunov"),
   ("eval_size", Value.int 10000), ("reload_data", Value.str "old_rd"),
   ("reload_model", Value.str "old_rm")]

/-- The full trace of the evaluation-only mode of `main`. -/
def evalTraceFull (cfg : MainCfg) : List MainEvent :=
  prologue ++ builds ++ evalOnlyTrace (cfg.evalScores 0)

/-- The trainer state after one epoch of `wMain` (value computed by
`epochBody wMain 5 wSt0 0`). -/
def wEpochState : TrainerState := { n_equations := 4, n_total_iter := 4, draws := 2 }

/-- The trace of one epoch of `wMain` (value computed by
`epochBody wMain 5 wSt0 0`). -/
def wEpochTrace : List MainEvent :=
  [MainEvent.epoch_start,
   MainEvent.work (Event.enc_dec_step "t2"), MainEvent.work Event.iter,
   MainEvent.work (Event.enc_dec_step "t1"), MainEvent.work Event.iter,
   MainEvent.work (Event.enc_dec_step "t2"), MainEvent.work Event.iter,
   MainEvent.work (Event.enc_dec_step "t1"), MainEvent.work Event.iter,
   MainEvent.run_all_evals, MainEvent.log_scores [("acc", 95)],
   MainEvent.log_metric "acc" 95, MainEvent.log_json [("acc", 95)],
   MainEvent.save_best_model, MainEvent.save_periodic, MainEvent.end_epoch]

/-- The full reconciliation result for `wIsFile`, `wSnapshot`, `wParams`
(value of `reconcile wIsFile wSnapshot wParams`). -/
def wC5Merged : Dict :=
  [("exp_id", Value.str ""), ("dump_path", Value.str "/cur/dump"),
   ("exp_name", Value.str "debug"), ("eval_only", Value.bool true),
   ("eval_from_exp", Value.str ""), ("eval_data", Value.str "/d/new"),
   ("batch_size", Value.int 64), ("max_len", Value.int 512),
   ("validation_metrics", Value.str "acc"), ("tasks", Value.str "ode_lyapunov"),
   ("eval_size", Value.none),
   ("reload_data", Value.str "ode_lyapunov,/d/new,/d/new"),
   ("reload_model", Value.str "/exp/run1/best-acc.pth")]

theorem lookup_eq_none_of_not_contains {d : Dict} {key : String}
    (h : containsKey d key = false) : lookup d key = Option.none := by
  cases hl : lookup d key with
  | none => rfl
  | some v => rw [containsKey, hl] at h; simp at h

theorem contains_of_lookup_some {d : Dict} {key : String} {v : Value}
    (h : lookup d key = some v) : containsKey d key = true := by
  rw [containsKey, h]; rfl

theorem lookup_eraseKey (d : Dict) (k key : String) :
    lookup (eraseKey d k) key = if key = k then Option.none else lookup d key := by
  induction d with
  | nil => simp [eraseKey, lookup]
  | cons kv d ih =>
    simp only [eraseKey]
    by_cases h1 : kv.1 = k
    · rw [if_pos h1, ih]
      by_cases h2 : key = k
      · rw [if_pos h2, if_pos h2]
      · have h3 : ¬ kv.1 = key := fun hh => h2 (hh.symm.trans h1)
        rw [if_neg h2, if_neg h2]
        simp only [lookup]
        rw [if_neg h3]
    · rw [if_neg h1]
      simp only [lookup]
      by_cases h3 : kv.1 = key
      · have h2 : ¬ key = k := fun hh => h1 (h3.trans hh)
        rw [if_pos h3, if_neg h2, if_pos h3]
      · rw [if_neg h3, ih]
        by_cases h2 : key = k
        · rw [if_pos h2, if_pos h2]
        · rw [if_neg h2, if_neg h2, if_neg h3]

theorem containsKey_eraseKey_ne {k key : String} (d : Dict) (h : key ≠ k) :
    containsKey (eraseKey d k) key = containsKey d key := by
  rw [containsKey, containsKey, lookup_eraseKey, if_neg h]

theorem lookup_append (d1 d2 : Dict) (key : String) :
    lookup (d1 ++ d2) key =
      match lookup d1 key with
      | some v => some v
      | Option.none => lookup d2 key := by
  induction d1 with
  | nil => simp [lookup]
  | cons kv d ih =>
    by_cases h : kv.1 = key <;> simp [lookup, h, ih]

theorem lookup_setEntries_ne (d : Dict) {key k2 : String} (v : Value) (h : k2 ≠ key) :
    lookup (setEntries d key v) k2 = lookup d k2 := by
  induction d with
  | nil => simp [setEntries]
  | cons kv d ih =>
    simp only [setEntries, lookup]
    by_cases h1 : kv.1 = key
    · have h2 : ¬ (key, v).1 = k2 := fun hh => h hh.symm
      have h3 : ¬ kv.1 = k2 := fun hh => h (hh.symm.trans h1)
      rw [if_pos h1, if_neg h2, if_neg h3, ih]
    · rw [if_neg h1]
      by_cases h2 : kv.1 = k2
      · rw [if_pos h2, if_pos h2]
      · rw [if_neg h2, if_neg h2, ih]

theorem lookup_setEntries_self (d : Dict) {key : String} (v : Value)
    (h : containsKey d key = true) :
    lookup (setEntries d key v) key = some v := by
  induction d with
  | nil => rw [containsKey, lookup] at h; simp at h
  | cons kv d ih =>
    by_cases h1 : kv.1 = key
    · simp [setEntries, lookup, h1]
    · rw [containsKey, lookup, if_neg h1] at h
      simp [setEntries, lookup, h1, ih h]

theorem lookup_setVal_self (d : Dict) (key : String) (v : Value) :
    lookup (setVal d key v) key = some v := by
  rw [setVal]
  cases hc : containsKey d key
  · rw [if_neg (by simp), lookup_append, lookup_eq_none_of_not_contains hc]
    simp [lookup]
  · rw [if_pos rfl, lookup_setEntries_self d v hc]

theorem lookup_setVal_ne (d : Dict) {key k2 : String} (v : Value) (h : k2 ≠ key) :
    lookup (setVal d key v) k2 = lookup d k2 := by
  rw [setVal]
  cases hc : containsKey d key
  · rw [if_neg (by simp), lookup_append]
    cases hl : lookup d k2 <;> simp [lookup, Ne.symm h, hl]
  · rw [if_pos rfl, lookup_setEntries_ne d v h]

theorem getStr_setVal_ne (d : Dict) {key k2 : String} (v : Value) (h : k2 ≠ key) :
    getStr (setVal d key v) k2 = getStr d k2 := by
  rw [getStr, getStr, lookup_setVal_ne d v h]

theorem getBool_setVal_ne (d : Dict) {key k2 : String} (v : Value) (h : k2 ≠ key) :
    getBool (setVal d key v) k2 = getBool d k2 := by
  rw [getBool, getBool, lookup_setVal_ne d v h]

theorem getStr_setVal_self (d : Dict) (key : String) (s : String) :
    getStr (setVal d key (Value.str s)) key = some s := by
  rw [getStr, lookup_setVal_self]

theorem getBool_setVal_self (d : Dict) (key : String) (b : Bool) :
    getBool (setVal d key (Value.bool b)) key = some b := by
  rw [getBool, lookup_setVal_self]

theorem delChecked_some {d d' : Dict} {key : String}
    (h : delChecked d key = some d') :
    containsKey d key = true ∧ d' = eraseKey d key := by
  rw [delChecked] at h
  cases hc : containsKey d key
  · rw [hc] at h; simp at h
  · rw [hc] at h; simp at h; exact ⟨rfl, h.symm⟩

theorem delChecked_none {d : Dict} {key : String}
    (h : containsKey d key = false) : delChecked d key = Option.none := by
  rw [delChecked, h]; simp

theorem stripIdentity_some {pickled pk : Dict}
    (h : stripIdentity pickled = some pk) :
    pk = eraseKey (eraseKey (eraseKey pickled "exp_id") "dump_path") "exp_name" := by
  simp only [stripIdentity, delChecked] at h
  cases c1 : containsKey pickled "exp_id"
  · rw [c1] at h; simp at h
  · rw [c1] at h
    simp only [reduceIte, Option.some_bind] at h
    cases c2 : containsKey (eraseKey pickled "exp_id") "dump_path"
    · rw [c2] at h; simp at h
    · rw [c2] at h
      simp only [reduceIte, Option.some_bind] at h
      cases c3 : containsKey (eraseKey (eraseKey pickled "exp_id") "dump_path") "exp_name"
      · rw [c3] at h; simp at h
      · rw [c3] at h
        simp only [reduceIte, Option.some.injEq] at h
        exact h.symm

theorem stripIdentity_none {pickled : Dict}
    (h : containsKey pickled "exp_id" = false ∨
      containsKey pickled "dump_path" = false ∨
      containsKey pickled "exp_name" = false) :
    stripIdentity pickled = Option.none := by
  rcases h with h | h | h
  · simp [stripIdentity, delChecked, h]
  · cases c1 : containsKey pickled "exp_id"
    · simp [stripIdentity, delChecked, c1]
    · have c2 : containsKey (eraseKey pickled "exp_id") "dump_path" = false := by
        rw [containsKey_eraseKey_ne _ (by decide), h]
      simp [stripIdentity, delChecked, c1, c2]
  · cases c1 : containsKey pickled "exp_id"
    · simp [stripIdentity, delChecked, c1]
    · cases c2 : containsKey (eraseKey pickled "exp_id") "dump_path"
      · simp [stripIdentity, delChecked, c1, c2]
      · have c3 : containsKey (eraseKey (eraseKey pickled "exp_id") "dump_path")
            "exp_name" = false := by
          rw [containsKey_eraseKey_ne _ (by decide),
            containsKey_eraseKey_ne _ (by decide), h]
        simp [stripIdentity, delChecked, c1, c2, c3]

theorem stripIdentity_isSome {pickled : Dict}
    (h1 : containsKey pickled "exp_id" = true)
    (h2 : containsKey pickled "dump_path" = true)
    (h3 : containsKey pickled "exp_name" = true) :
    (stripIdentity pickled).isSome = true := by
  have c2 : containsKey (eraseKey pickled "exp_id") "dump_path" = true := by
    rw [containsKey_eraseKey_ne _ (by decide), h2]
  have c3 : containsKey (eraseKey (eraseKey pickled "exp_id") "dump_path")
      "exp_name" = true := by
    rw [containsKey_eraseKey_ne _ (by decide),
      containsKey_eraseKey_ne _ (by decide), h3]
  simp [stripIdentity, delChecked, h1, c2, c3]

theorem lookup_stripIdentity_ne {pickled pk : Dict}
    (h : stripIdentity pickled = some pk) {key : String}
    (hk : key ∉ identityKeys) :
    lookup pk key = lookup pickled key := by
  have h1 : key ≠ "exp_id" := by intro hh; exact hk (by rw [hh]; simp [identityKeys])
  have h2 : key ≠ "dump_path" := by intro hh; exact hk (by rw [hh]; simp [identityKeys])
  have h3 : key ≠ "exp_name" := by intro hh; exact hk (by rw [hh]; simp [identityKeys])
  rw [stripIdentity_some h, lookup_eraseKey, if_neg h3, lookup_eraseKey, if_neg h2,
    lookup_eraseKey, if_neg h1]

theorem lookup_stripIdentity_mem {pickled pk : Dict}
    (h : stripIdentity pickled = some pk) {key : String}
    (hk : key ∈ identityKeys) :
    lookup pk key = Option.none := by
  rw [stripIdentity_some h]
  rw [identityKeys] at hk
  simp only [List.mem_cons, List.not_mem_nil, or_false] at hk
  rcases hk with rfl | rfl | rfl
  · rw [lookup_eraseKey, if_neg (by decide), lookup_eraseKey, if_neg (by decide),
      lookup_eraseKey, if_pos rfl]
  · rw [lookup_eraseKey, if_neg (by decide), lookup_eraseKey, if_pos rfl]
  · rw [lookup_eraseKey, if_pos rfl]

theorem lookup_stepErase (d : Dict) (k key : String) :
    lookup (if containsKey d k then eraseKey d k else d) key =
      if key = k then Option.none else lookup d key := by
  cases hc : containsKey d k
  · simp only [Bool.false_eq_true, if_false]
    by_cases h2 : key = k
    · rw [if_pos h2, h2, lookup_eq_none_of_not_contains hc]
    · rw [if_neg h2]
  · simp only [if_true]
    exact lookup_eraseKey d k key

theorem lookup_foldlErase (L : List String) (d : Dict) (key : String) :
    lookup (L.foldl (fun d k => if containsKey d k then eraseKey d k else d) d) key =
      if key ∈ L then Option.none else lookup d key := by
  induction L generalizing d with
  | nil => simp
  | cons k1 L ih =>
    rw [List.foldl_cons, ih]
    by_cases h : key ∈ L
    · rw [if_pos h, if_pos (List.mem_cons.mpr (Or.inr h))]
    · rw [if_neg h, lookup_stepErase]
      by_cases h2 : key = k1
      · rw [if_pos h2, if_pos (List.mem_cons.mpr (Or.inl h2))]
      · rw [if_neg h2, if_neg (fun hh => (List.mem_cons.mp hh).elim h2 h)]

theorem lookup_stripExclusions (d : Dict) (key : String) :
    lookup (stripExclusions d) key =
      if key ∈ exclusionKeys then Option.none else lookup d key := by
  rw [stripExclusions, lookup_foldlErase]

theorem lookup_mergeFromSnapshot (params pk : Dict) (key : String) :
    lookup (mergeFromSnapshot params pk) key =
      match lookup params key with
      | Option.none => Option.none
      | some v => some ((lookup pk key).getD v) := by
  induction params with
  | nil => simp [mergeFromSnapshot, lookup]
  | cons kv d ih =>
    by_cases hk : kv.1 = key
    · cases hpk : lookup pk kv.1 <;>
        simp [mergeFromSnapshot, lookup, hk, hpk ▸ (hk ▸ hpk), ih] <;>
        rw [← hk, hpk] <;> simp
    · cases hpk : lookup pk kv.1 <;> simp [mergeFromSnapshot, lookup, hk, hpk, ih]

theorem mergedParams_some {pickled params merged : Dict}
    (h : mergedParams pickled params = some merged) :
    ∃ pk, stripIdentity pickled = some pk ∧
      merged = mergeFromSnapshot params (stripExclusions pk) := by
  rw [mergedParams] at h
  cases hs : stripIdentity pickled with
  | none => rw [hs] at h; simp at h
  | some pk =>
    rw [hs] at h
    simp at h
    exact ⟨pk, rfl, h.symm⟩

theorem lookup_mergedParams_excluded {pickled params merged : Dict}
    (h : mergedParams pickled params = some merged) {key : String}
    (hk : key ∈ identityKeys ++ exclusionKeys) :
    lookup merged key = lookup params key := by
  obtain ⟨pk, hstrip, rfl⟩ := mergedParams_some h
  rw [lookup_mergeFromSnapshot]
  have hpk : lookup (stripExclusions pk) key = Option.none := by
    rw [lookup_stripExclusions]
    rcases List.mem_append.mp hk with hid | hex
    · by_cases hx : key ∈ exclusionKeys
      · rw [if_pos hx]
      · rw [if_neg hx, lookup_stripIdentity_mem hstrip hid]
    · rw [if_pos hex]
  rw [hpk]
  cases lookup params key <;> simp

theorem lookup_mergedParams_shared {pickled params merged : Dict}
    (h : mergedParams pickled params = some merged) {key : String}
    (hk : key ∉ identityKeys ++ exclusionKeys)
    (hp : containsKey params key = true)
    (hpick : containsKey pickled key = true) :
    lookup merged key = lookup pickled key := by
  obtain ⟨pk, hstrip, rfl⟩ := mergedParams_some h
  have hk1 : key ∉ identityKeys := fun hh => hk (List.mem_append.mpr (Or.inl hh))
  have hk2 : key ∉ exclusionKeys := fun hh => hk (List.mem_append.mpr (Or.inr hh))
  rw [lookup_mergeFromSnapshot]
  rw [containsKey] at hp hpick
  obtain ⟨v, hv⟩ := Option.isSome_iff_exists.mp hp
  obtain ⟨w, hw⟩ := Option.isSome_iff_exists.mp hpick
  rw [hv, lookup_stripExclusions, if_neg hk2, lookup_stripIdentity_ne hstrip hk1, hw]
  rfl

theorem reconcile_eq_core {params : Dict} {expStr : String}
    (isFile : String → Bool) (snapshot : String → Dict)
    (h0 : getBool params "eval_only" = some true)
    (h1 : getStr params "eval_from_exp" = some expStr)
    (h2 : expStr ≠ "") :
    reconcile isFile snapshot params =
      reconcileCore isFile (snapshot (expStr ++ "/params.pkl")) expStr params := by
  simp only [reconcile, h0, h1]
  rw [if_neg h2]

theorem reconcileCore_some {isFile : String → Bool} {pickled : Dict} {expStr : String}
    {params p' : Dict} (h : reconcileCore isFile pickled expStr params = some p') :
    ∃ p1 vm,
      mergedParams pickled params = some p1 ∧
      getStr (setVal p1 "eval_only" (Value.bool true)) "validation_metrics" = some vm ∧
      isFile (expStr ++ "/best-" ++ vm ++ ".pth") = true ∧
      ∃ ed, getStr (setVal (setVal p1 "eval_only" (Value.bool true)) "reload_model"
          (Value.str (expStr ++ "/best-" ++ vm ++ ".pth"))) "eval_data" = some ed ∧
        ((ed = "" ∧ p' = setVal (setVal p1 "eval_only" (Value.bool true)) "reload_model"
            (Value.str (expStr ++ "/best-" ++ vm ++ ".pth"))) ∨
         (ed ≠ "" ∧ ∃ ts,
           getStr (setVal (setVal (setVal p1 "eval_only" (Value.bool true)) "reload_model"
             (Value.str (expStr ++ "/best-" ++ vm ++ ".pth"))) "eval_size" Value.none)
             "tasks" = some ts ∧
           p' = setVal (setVal (setVal (setVal p1 "eval_only" (Value.bool true))
             "reload_model" (Value.str (expStr ++ "/best-" ++ vm ++ ".pth")))
             "eval_size" Value.none) "reload_data"
             (Value.str (ts ++ "," ++ ed ++ "," ++ ed)))) := by
  rw [reconcileCore] at h
  split at h
  · split at h
    · exact Option.noConfusion h
    · rename_i p1 hp1
      split at h
      · exact Option.noConfusion h
      · rename_i vm hvm
        split at h
        · rename_i hFile
          split at h
          · exact Option.noConfusion h
          · rename_i ed hed
            split at h
            · rename_i hed0
              refine ⟨p1, vm, hp1, hvm, hFile, ed, hed, Or.inl ⟨hed0, ?_⟩⟩
              exact (Option.some.injEq _ _ ▸ h).symm
            · rename_i hed0
              split at h
              · exact Option.noConfusion h
              · rename_i ts hts
                refine ⟨p1, vm, hp1, hvm, hFile, ed, hed,
                  Or.inr ⟨hed0, ts, hts, ?_⟩⟩
                exact (Option.some.injEq _ _ ▸ h).symm
        · exact Option.noConfusion h
  · exact Option.noConfusion h

/-- Claim C3: after the merge stage of reconciliation (train.py lines
211-234), every excluded field (the experiment-identity fields and the fixed
per-run exclusion set) retains the current configuration's value, and every
non-excluded field present in both the current configuration and the snapshot
equals the snapshot's value exactly. -/
theorem C3_merge_excluded_and_shared {pickled params merged : Dict}
    (h : mergedParams pickled params = some merged) :
    (∀ key, key ∈ identityKeys ++ exclusionKeys →
      lookup merged key = lookup params key) ∧
    (∀ key, key ∉ identityKeys ++ exclusionKeys →
      containsKey params key = true → containsKey pickled key = true →
      lookup merged key = lookup pickled key) :=
  ⟨fun _ hk => lookup_mergedParams_excluded h hk,
   fun _ hk hp hpick => lookup_mergedParams_shared h hk hp hpick⟩

/-- Witness for C3 at the concrete snapshot and configuration: the excluded
field `max_len` keeps the current value and the shared field `batch_size`
takes the snapshot's value. -/
theorem C3_witness :
    lookup wMergedStage "max_len" = lookup wParams "max_len" ∧
    lookup wMergedStage "batch_size" = lookup wPickled "batch_size" :=
  ⟨(@C3_merge_excluded_and_shared wPickled wParams wMergedStage
      (by decide)).1 "max_len" (by decide),
   (@C3_merge_excluded_and_shared wPickled wParams wMergedStage
      (by decide)).2 "batch_size" (by decide) (by decide) (by decide)⟩

/-- Claim C4: when resuming in evaluation-against-a-prior-experiment mode,
after merging, evaluation-only mode is forced on, the model-reload path equals
`<experiment_dir>/best-<validation_metric>.pth` with the metric name from the
merged configuration, and reconciliation only succeeds when that file exists
(it fails fast otherwise). -/
theorem C4_forced_eval_and_reload_path (isFile : String → Bool)
    (snapshot : String → Dict) (params p' : Dict) (expStr : String)
    (h0 : getBool params "eval_only" = some true)
    (h1 : getStr params "eval_from_exp" = some expStr)
    (h2 : expStr ≠ "")
    (h : reconcile isFile snapshot params = some p') :
    getBool p' "eval_only" = some true ∧
    ∃ vm, getStr p' "validation_metrics" = some vm ∧
      getStr p' "reload_model" = some (expStr ++ "/best-" ++ vm ++ ".pth") ∧
      isFile (expStr ++ "/best-" ++ vm ++ ".pth") = true := by
  rw [reconcile_eq_core isFile snapshot h0 h1 h2] at h
  obtain ⟨p1, vm, hp1, hvm, hFile, ed, hed, hcase⟩ := reconcileCore_some h
  rcases hcase with ⟨he, rfl⟩ | ⟨hne, ts, hts, rfl⟩
  · refine ⟨?_, vm, ?_, ?_, hFile⟩
    · rw [getBool_setVal_ne _ _ (by decide)]
      exact getBool_setVal_self p1 "eval_only" true
    · rw [getStr_setVal_ne _ _ (by decide)]
      exact hvm
    · exact getStr_setVal_self _ "reload_model" _
  · refine ⟨?_, vm, ?_, ?_, hFile⟩
    · rw [getBool_setVal_ne _ _ (by decide), getBool_setVal_ne _ _ (by decide),
        getBool_setVal_ne _ _ (by decide)]
      exact getBool_setVal_self p1 "eval_only" true
    · rw [getStr_setVal_ne _ _ (by decide), getStr_setVal_ne _ _ (by decide),
        getStr_setVal_ne _ _ (by decide)]
      exact hvm
    · rw [getStr_setVal_ne _ _ (by decide), getStr_setVal_ne _ _ (by decide)]
      exact getStr_setVal_self _ "reload_model" _

/-- Witness for C4 at the concrete scenario: evaluation-only is forced on and
the reload path resolves to `/exp/run1/best-acc.pth`, which exists. -/
theorem C4_witness :
    getBool wC5Merged "eval_only" = some true ∧
    ∃ vm, getStr wC5Merged "validation_metrics" = some vm ∧
      getStr wC5Merged "reload_model" = some ("/exp/run1" ++ "/best-" ++ vm ++ ".pth") ∧
      wIsFile ("/exp/run1" ++ "/best-" ++ vm ++ ".pth") = true :=
  C4_forced_eval_and_reload_path wIsFile wSnapshot wParams wC5Merged "/exp/run1"
    (by decide) (by decide) (by decide) (by decide)

/-- Counterexample to claim C5 as stated: at a concrete configuration with a
supplied evaluation-data path, reconciliation rewrites the reload-data spec to
`<tasks>,<eval_data>,<eval_data>`, which under the documented reload format
has no test path at all, so not every split points at the supplied path. -/
theorem C5_counterexample : ¬ claimC5 wIsFile wSnapshot wParams := fun h =>
  absurd ((h wC5Merged "/d/new" (by decide) (by decide) (by decide)).2) (by decide)

/-- Claim C5 as amended: when a non-empty evaluation-data path is supplied,
the evaluation sample cap becomes `None` (unbounded) and the reload-data spec
is rewritten to exactly `<tasks>,<eval_data>,<eval_data>`: the train and valid
splits point at the supplied path and no test path is included. -/
theorem C5_amended_reload_rewrite (isFile : String → Bool)
    (snapshot : String → Dict) (params p' : Dict) (expStr ed : String)
    (h0 : getBool params "eval_only" = some true)
    (h1 : getStr params "eval_from_exp" = some expStr)
    (h2 : expStr ≠ "")
    (hed : getStr params "eval_data" = some ed)
    (hne : ed ≠ "")
    (h : reconcile isFile snapshot params = some p') :
    lookup p' "eval_size" = some Value.none ∧
    ∃ ts, getStr p' "tasks" = some ts ∧
      getStr p' "reload_data" = some (ts ++ "," ++ ed ++ "," ++ ed) := by
  rw [reconcile_eq_core isFile snapshot h0 h1 h2] at h
  obtain ⟨p1, vm, hp1, hvm, hFile, ed0, hed0, hcase⟩ := reconcileCore_some h
  have hed1 : getStr (setVal (setVal p1 "eval_only" (Value.bool true)) "reload_model"
      (Value.str (expStr ++ "/best-" ++ vm ++ ".pth"))) "eval_data" = some ed := by
    rw [getStr_setVal_ne _ _ (by decide), getStr_setVal_ne _ _ (by decide)]
    rw [getStr] at hed ⊢
    rw [lookup_mergedParams_excluded hp1 (by decide)]
    exact hed
  rw [hed1] at hed0
  have hee : ed0 = ed := by
    injection hed0 with hh
    exact hh.symm
  subst hee
  rcases hcase with ⟨he, rfl⟩ | ⟨hne2, ts, hts, rfl⟩
  · exact absurd he hne
  · refine ⟨?_, ts, ?_, ?_⟩
    · rw [lookup_setVal_ne _ _ (by decide)]
      exact lookup_setVal_self _ "eval_size" Value.none
    · rw [getStr_setVal_ne _ _ (by decide)]
      exact hts
    · exact getStr_setVal_self _ "reload_data" _

/-- Witness for the amended C5 at the concrete scenario: the evaluation
sample cap becomes `None` and the reload-data spec becomes
`ode_lyapunov,/d/new,/d/new`. -/
theorem C5_witness :
    lookup wC5Merged "eval_size" = some Value.none ∧
    ∃ ts, getStr wC5Merged "tasks" = some ts ∧
      getStr wC5Merged "reload_data" = some (ts ++ "," ++ "/d/new" ++ "," ++ "/d/new") :=
  C5_amended_reload_rewrite wIsFile wSnapshot wParams wC5Merged "/exp/run1" "/d/new"
    (by decide) (by decide) (by decide) (by decide) (by decide) (by decide)

/-- Claim C9: reconciliation succeeds only if the loaded snapshot contains all
three experiment-identity fields, which are deleted unconditionally: a
snapshot missing any of them makes reconciliation fail before any merging,
whereas the exclusion-set deletions are guarded, so the merge stage succeeds
whenever the identity fields are present, regardless of which exclusion keys
the snapshot contains. -/
theorem C9_identity_required (isFile : String → Bool) (snapshot : String → Dict)
    (params : Dict) (expStr : String)
    (h0 : getBool params "eval_only" = some true)
    (h1 : getStr params "eval_from_exp" = some expStr)
    (h2 : expStr ≠ "") :
    ((containsKey (snapshot (expStr ++ "/params.pkl")) "exp_id" = false ∨
      containsKey (snapshot (expStr ++ "/params.pkl")) "dump_path" = false ∨
      containsKey (snapshot (expStr ++ "/params.pkl")) "exp_name" = false) →
      mergedParams (snapshot (expStr ++ "/params.pkl")) params = Option.none ∧
      reconcile isFile snapshot params = Option.none) ∧
    ((containsKey (snapshot (expStr ++ "/params.pkl")) "exp_id" = true ∧
      containsKey (snapshot (expStr ++ "/params.pkl")) "dump_path" = true ∧
      containsKey (snapshot (expStr ++ "/params.pkl")) "exp_name" = true) →
      (mergedParams (snapshot (expStr ++ "/params.pkl")) params).isSome = true) := by
  constructor
  · intro hmiss
    have hm : mergedParams (snapshot (expStr ++ "/params.pkl")) params = Option.none := by
      rw [mergedParams, stripIdentity_none hmiss]
      rfl
    refine ⟨hm, ?_⟩
    rw [reconcile_eq_core isFile snapshot h0 h1 h2, reconcileCore, hm]
    split <;> rfl
  · rintro ⟨c1, c2, c3⟩
    rw [mergedParams]
    have hs := stripIdentity_isSome c1 c2 c3
    cases hx : stripIdentity (snapshot (expStr ++ "/params.pkl"))
    · rw [hx] at hs; simp at hs
    · simp

/-- Witness for C9: with a snapshot missing `exp_name`, reconciliation fails;
the full configuration (identity fields present) merges successfully. -/
theorem C9_witness :
    reconcile wIsFile wSnapshotBad wParams = Option.none ∧
    (mergedParams (wSnapshot "/exp/run1/params.pkl") wParams).isSome = true :=
  ⟨((C9_identity_required wIsFile wSnapshotBad wParams "/exp/run1"
      (by decide) (by decide) (by decide)).1
      (Or.inr (Or.inr (by decide)))).2,
   (C9_identity_required wIsFile wSnapshot wParams "/exp/run1"
      (by decide) (by decide) (by decide)).2 ⟨by decide, by decide, by decide⟩⟩

theorem runTasks_trace (ed : Bool) (delta : Nat) (order : List String)
    (st : TrainerState) :
    (runTasks ed delta order st).2 = taskTrace ed order := by
  induction order generalizing st with
  | nil => rfl
  | cons t ts ih => simp [runTasks, taskTrace, ih]

theorem runTasks_n_equations (ed : Bool) (delta : Nat) (order : List String)
    (st : TrainerState) :
    (runTasks ed delta order st).1.n_equations =
      st.n_equations + delta * order.length := by
  induction order generalizing st with
  | nil => simp [runTasks]
  | cons t ts ih =>
    simp only [runTasks, ih, iterState, List.length_cons]
    ring

theorem runTasks_n_total_iter (ed : Bool) (delta : Nat) (order : List String)
    (st : TrainerState) :
    (runTasks ed delta order st).1.n_total_iter =
      st.n_total_iter + order.length := by
  induction order generalizing st with
  | nil => simp [runTasks]
  | cons t ts ih =>
    simp only [runTasks, ih, iterState, List.length_cons]
    omega

theorem runTasks_draws (ed : Bool) (delta : Nat) (order : List String)
    (st : TrainerState) :
    (runTasks ed delta order st).1.draws = st.draws := by
  induction order generalizing st with
  | nil => simp [runTasks]
  | cons t ts ih => simp only [runTasks, ih, iterState]

theorem innerStep_trace (cfg : SchedCfg) (st : TrainerState) :
    (innerStep cfg st).2 =
      taskTrace cfg.export_data (drawnOrder cfg.tasks cfg.permStream st.draws) := by
  rw [innerStep, runTasks_trace]

theorem innerStep_draws (cfg : SchedCfg) (st : TrainerState) :
    (innerStep cfg st).1.draws = st.draws + 1 := by
  rw [innerStep, runTasks_draws]

theorem innerStep_n_equations (cfg : SchedCfg) (st : TrainerState) :
    (innerStep cfg st).1.n_equations =
      st.n_equations +
        cfg.iterDelta * (drawnOrder cfg.tasks cfg.permStream st.draws).length := by
  rw [innerStep, runTasks_n_equations]

theorem whileLoop_some_exit (cfg : SchedCfg) :
    ∀ fuel st st' evs, whileLoop cfg fuel st = some (st', evs) →
      cfg.epoch_size ≤ st'.n_equations := by
  intro fuel
  induction fuel with
  | zero =>
    intro st st' evs h
    rw [whileLoop] at h
    split at h
    · exact Option.noConfusion h
    · rename_i hcond
      injection h with hpair
      cases hpair
      omega
  | succ fuel ih =>
    intro st st' evs h
    rw [whileLoop] at h
    split at h
    · split at h
      · exact Option.noConfusion h
      · rename_i stFin evs2 hrec
        injection h with hpair
        cases hpair
        exact ih _ _ _ hrec
    · rename_i hcond
      injection h with hpair
      cases hpair
      omega

theorem map_getD_range (l : List String) :
    (List.range l.length).map (fun i => l.getD i "") = l := by
  induction l with
  | nil => simp
  | cons a l ih =>
    rw [List.length_cons, List.range_succ_eq_map, List.map_cons, List.map_map]
    simp only [List.getD_cons_zero]
    rw [show (fun i => (a :: l).getD i "") ∘ Nat.succ = fun i => l.getD i "" from
      funext fun i => rfl, ih]

theorem drawnOrder_perm (tasks : List String) (perms : Nat → List Nat) (k : Nat)
    (h : (perms k).Perm (List.range tasks.length)) :
    (drawnOrder tasks perms k).Perm tasks := by
  rw [drawnOrder]
  have hm := h.map (fun i => tasks.getD i "")
  rw [map_getD_range] at hm
  exact hm

theorem whileLoop_none_of_no_progress (cfg : SchedCfg)
    (hperm : ∀ k, (cfg.permStream k).Perm (List.range cfg.tasks.length))
    (hdeg : cfg.tasks = [] ∨ cfg.iterDelta = 0) :
    ∀ fuel st, st.n_equations < cfg.epoch_size →
      whileLoop cfg fuel st = Option.none := by
  have hstep : ∀ st : TrainerState, (innerStep cfg st).1.n_equations = st.n_equations := by
    intro st
    rw [innerStep_n_equations]
    rcases hdeg with hd | hd
    · have hp := hperm st.draws
      rw [hd] at hp
      simp only [List.length_nil, List.range_zero] at hp
      rw [drawnOrder, hp.eq_nil]
      simp
    · rw [hd]
      simp
  intro fuel
  induction fuel with
  | zero =>
    intro st hlt
    rw [whileLoop, if_pos hlt]
  | succ fuel ih =>
    intro st hlt
    rw [whileLoop, if_pos hlt, ih _ (by rw [hstep st]; exact hlt)]

/-- Claim C1: in each epoch the work-unit counter is reset to zero before the
inner loop; one inner step performs exactly one work unit (`export_data` or
`enc_dec_step`, by mode) followed by one `trainer.iter()` per task in the
drawn order; and whenever the inner loop exits, the work-unit counter has
reached at least the configured epoch size. -/
theorem C1_epoch_loop (cfg : SchedCfg) (fuel : Nat) (st : TrainerState) :
    (∀ n, runEpoch cfg fuel { st with n_equations := n } = runEpoch cfg fuel st) ∧
    (∀ st1, (innerStep cfg st1).2 =
      taskTrace cfg.export_data (drawnOrder cfg.tasks cfg.permStream st1.draws)) ∧
    (∀ task, workUnit true task = Event.export_data task ∧
      workUnit false task = Event.enc_dec_step task) ∧
    (∀ st' evs, runEpoch cfg fuel st = some (st', evs) →
      cfg.epoch_size ≤ st'.n_equations) := by
  refine ⟨fun n => rfl, fun st1 => innerStep_trace cfg st1,
    fun task => ⟨rfl, rfl⟩, ?_⟩
  intro st' evs h
  rw [runEpoch] at h
  exact whileLoop_some_exit cfg fuel _ st' evs h

/-- Witness for C1: a two-task epoch of size three exits with the counter at
four, not before reaching the epoch size. -/
theorem C1_witness :
    wSched.epoch_size ≤ 4 :=
  (C1_epoch_loop wSched 5 wSt0).2.2.2
    { n_equations := 4, n_total_iter := 4, draws := 2 }
    [Event.enc_dec_step "t2", Event.iter, Event.enc_dec_step "t1", Event.iter,
     Event.enc_dec_step "t2", Event.iter, Event.enc_dec_step "t1", Event.iter]
    (by decide)

/-- Claim C2: every drawn task order is a permutation of the full configured
task list, and each inner step of the while loop draws a fresh permutation:
it consumes exactly the next index of the draw stream and its trace is built
from the permutation drawn at that index. -/
theorem C2_fresh_permutations (cfg : SchedCfg) (st : TrainerState)
    (hperm : ∀ k, (cfg.permStream k).Perm (List.range cfg.tasks.length)) :
    (∀ k, (drawnOrder cfg.tasks cfg.permStream k).Perm cfg.tasks) ∧
    (innerStep cfg st).1.draws = st.draws + 1 ∧
    (innerStep cfg st).2 =
      taskTrace cfg.export_data (drawnOrder cfg.tasks cfg.permStream st.draws) :=
  ⟨fun k => drawnOrder_perm _ _ k (hperm k), innerStep_draws cfg st,
   innerStep_trace cfg st⟩

/-- Witness for C2: with the fixed draw stream, the drawn order is a
permutation of the two tasks, and an inner step advances the draw counter by
one. -/
theorem C2_witness :
    (drawnOrder wSched.tasks wSched.permStream 0).Perm wSched.tasks ∧
    (innerStep wSched wSt0).1.draws = wSt0.draws + 1 := by
  have hp : ∀ k, (wSched.permStream k).Perm (List.range wSched.tasks.length) := by
    intro k
    show ([1, 0] : List Nat).Perm (List.range 2)
    decide
  exact ⟨(C2_fresh_permutations wSched wSt0 hp).1 0,
    (C2_fresh_permutations wSched wSt0 hp).2.1⟩

/-- Claim C10: with a positive epoch size, the inner loop terminates only if
the task list is non-empty and `trainer.iter()` strictly increases the
work-unit counter; in particular with an empty task list each inner step
performs no work units and no bookkeeping calls, leaves the counter
unchanged, and the while loop never terminates for any fuel. -/
theorem C10_empty_tasks_diverge (cfg : SchedCfg) (st : TrainerState)
    (hperm : ∀ k, (cfg.permStream k).Perm (List.range cfg.tasks.length))
    (hpos : 0 < cfg.epoch_size) :
    (cfg.tasks = [] →
      (∀ st1, (innerStep cfg st1).2 = [] ∧
        (innerStep cfg st1).1.n_equations = st1.n_equations) ∧
      (∀ fuel, runEpoch cfg fuel st = Option.none)) ∧
    (∀ fuel out, runEpoch cfg fuel st = some out →
      cfg.tasks ≠ [] ∧ 0 < cfg.iterDelta) := by
  have horder : cfg.tasks = [] → ∀ k, drawnOrder cfg.tasks cfg.permStream k = [] := by
    intro hd k
    have hp := hperm k
    rw [hd] at hp
    simp only [List.length_nil, List.range_zero] at hp
    rw [drawnOrder, hp.eq_nil]
    rfl
  have hst0 : ({ st with n_equations := 0 } : TrainerState).n_equations <
      cfg.epoch_size := hpos
  constructor
  · intro hd
    constructor
    · intro st1
      constructor
      · rw [innerStep_trace, horder hd]
        rfl
      · rw [innerStep_n_equations, horder hd]
        simp
    · intro fuel
      rw [runEpoch]
      exact whileLoop_none_of_no_progress cfg hperm (Or.inl hd) fuel _ hst0
  · intro fuel out h
    rw [runEpoch] at h
    constructor
    · intro hd
      rw [whileLoop_none_of_no_progress cfg hperm (Or.inl hd) fuel _ hst0] at h
      exact Option.noConfusion h
    · by_contra hz
      have hd : cfg.iterDelta = 0 := by omega
      rw [whileLoop_none_of_no_progress cfg hperm (Or.inr hd) fuel _ hst0] at h
      exact Option.noConfusion h

/-- Witness for C10: with an empty task list and epoch size one, the epoch
loop diverges (returns no result at fuel five). -/
theorem C10_witness :
    runEpoch wSchedEmpty 5 wSt0 = Option.none := by
  have hp : ∀ k, (wSchedEmpty.permStream k).Perm
      (List.range wSchedEmpty.tasks.length) := by
    intro k
    show ([] : List Nat).Perm (List.range 0)
    decide
  exact ((C10_empty_tasks_diverge wSchedEmpty wSt0 hp (by decide)).1 rfl).2 5

theorem countP_map_eq_zero {α : Type} (l : List α) (f : α → MainEvent)
    (p : MainEvent → Bool) (h : ∀ a, p (f a) = false) :
    (l.map f).countP p = 0 := by
  induction l with
  | nil => rfl
  | cons a l ih => simp [List.countP_cons, h, ih]

theorem countP_metricLines_isLogMetric (scores : Scores) :
    (metricLines scores).countP isLogMetric = scores.length := by
  induction scores with
  | nil => rfl
  | cons kv l ih =>
    rw [metricLines] at ih ⊢
    rw [List.map_cons, List.countP_cons, ih]
    rfl

theorem countP_metricLines_zero (scores : Scores) (p : MainEvent → Bool)
    (h : ∀ n v, p (MainEvent.log_metric n v) = false) :
    (metricLines scores).countP p = 0 := by
  rw [metricLines]
  exact countP_map_eq_zero _ _ _ (fun kv => h kv.1 kv.2)

theorem masterBlock_counts (scores : Scores) :
    (masterBlock scores).countP isRunAllEvals = 1 ∧
    (masterBlock scores).countP isSaveBest = 1 ∧
    (masterBlock scores).countP isSavePeriodic = 1 ∧
    (masterBlock scores).countP isEndEpoch = 1 ∧
    (masterBlock scores).countP isEpochStart = 0 := by
  have z1 : (metricLines scores).countP isRunAllEvals = 0 :=
    countP_metricLines_zero scores isRunAllEvals (fun n v => rfl)
  have z2 : (metricLines scores).countP isSaveBest = 0 :=
    countP_metricLines_zero scores isSaveBest (fun n v => rfl)
  have z3 : (metricLines scores).countP isSavePeriodic = 0 :=
    countP_metricLines_zero scores isSavePeriodic (fun n v => rfl)
  have z4 : (metricLines scores).countP isEndEpoch = 0 :=
    countP_metricLines_zero scores isEndEpoch (fun n v => rfl)
  have z5 : (metricLines scores).countP isEpochStart = 0 :=
    countP_metricLines_zero scores isEpochStart (fun n v => rfl)
  refine ⟨?_, ?_, ?_, ?_, ?_⟩ <;>
    simp [masterBlock, List.countP_cons, List.countP_append, z1, z2, z3, z4, z5] <;>
    simp [isRunAllEvals, isSaveBest, isSavePeriodic, isEndEpoch, isEpochStart]

theorem quad_sublist_masterBlock (scores : Scores) :
    List.Sublist [MainEvent.run_all_evals, MainEvent.save_best_model,
      MainEvent.save_periodic, MainEvent.end_epoch] (masterBlock scores) := by
  rw [masterBlock]
  refine List.Sublist.cons₂ _ (List.Sublist.cons _ ?_)
  exact (List.Sublist.cons _ (List.Sublist.refl _)).trans
    (List.sublist_append_right _ _)

theorem getLast?_append_singleton {α : Type} (l : List α) (a : α) :
    (l ++ [a]).getLast? = some a := by
  induction l with
  | nil => rfl
  | cons b l ih =>
    cases l with
    | nil => rfl
    | cons c l2 =>
      rw [List.cons_append, List.cons_append, List.getLast?_cons_cons,
        ← List.cons_append]
      exact ih

theorem epochBody_some {cfg : MainCfg} {fuel : Nat} {st : TrainerState} {k : Nat}
    {st' : TrainerState} {evs : List MainEvent}
    (h : epochBody cfg fuel st k = some (st', evs)) :
    ∃ wk, runEpoch cfg.sched fuel st = some (st', wk) ∧
      evs = MainEvent.epoch_start :: wk.map MainEvent.work ++
        (if cfg.is_master then masterBlock (cfg.evalScores k) else []) := by
  rw [epochBody] at h
  cases hr : runEpoch cfg.sched fuel st with
  | none => rw [hr] at h; exact Option.noConfusion h
  | some pr =>
    rw [hr] at h
    cases pr with
    | mk st1 wk =>
      simp only [Option.some.injEq, Prod.mk.injEq] at h
      obtain ⟨h1, h2⟩ := h
      refine ⟨wk, ?_, h2.symm⟩
      rw [h1]

theorem epochBody_count_epoch_start {cfg : MainCfg} {fuel : Nat}
    {st : TrainerState} {k : Nat} {st' : TrainerState} {evs : List MainEvent}
    (h : epochBody cfg fuel st k = some (st', evs)) :
    evs.countP isEpochStart = 1 := by
  obtain ⟨wk, _, rfl⟩ := epochBody_some h
  have h1 : (wk.map MainEvent.work).countP isEpochStart = 0 :=
    countP_map_eq_zero _ _ _ (fun e => rfl)
  cases hm : cfg.is_master <;>
    simp [List.countP_cons, List.countP_append, h1, isEpochStart, hm,
      (masterBlock_counts (cfg.evalScores k)).2.2.2.2]

theorem trainEpochs_countP_epoch_start (cfg : MainCfg) (fuel : Nat) :
    ∀ n k st evs, trainEpochs cfg fuel k n st = some evs →
      evs.countP isEpochStart = n := by
  intro n
  induction n with
  | zero =>
    intro k st evs h
    rw [trainEpochs] at h
    injection h with h1
    rw [← h1]
    rfl
  | succ n ih =>
    intro k st evs h
    rw [trainEpochs] at h
    split at h
    · exact Option.noConfusion h
    · rename_i st1 evs1 hep
      split at h
      · exact Option.noConfusion h
      · rename_i rest hrest
        injection h with h1
        rw [← h1, List.countP_append, ih _ _ _ hrest,
          epochBody_count_epoch_start hep]
        omega

theorem evalTraceFull_counts (cfg : MainCfg) :
    (evalTraceFull cfg).countP isRunAllEvals = 1 ∧
    (evalTraceFull cfg).countP isLogMetric = (cfg.evalScores 0).length ∧
    (evalTraceFull cfg).countP isLogJson = 1 ∧
    (evalTraceFull cfg).countP isEpochStart = 0 := by
  have z1 : (metricLines (cfg.evalScores 0)).countP isRunAllEvals = 0 :=
    countP_metricLines_zero _ isRunAllEvals (fun n v => rfl)
  have z2 : (metricLines (cfg.evalScores 0)).countP isLogMetric =
      (cfg.evalScores 0).length := countP_metricLines_isLogMetric _
  have z3 : (metricLines (cfg.evalScores 0)).countP isLogJson = 0 :=
    countP_metricLines_zero _ isLogJson (fun n v => rfl)
  have z5 : (metricLines (cfg.evalScores 0)).countP isEpochStart = 0 :=
    countP_metricLines_zero _ isEpochStart (fun n v => rfl)
  refine ⟨?_, ?_, ?_, ?_⟩ <;>
    simp [evalTraceFull, prologue, builds, evalOnlyTrace, List.countP_cons,
      List.countP_append, z1, z2, z3, z5] <;>
    simp [isRunAllEvals, isLogMetric, isLogJson, isEpochStart]

/-- Claim C6: in evaluation-only mode, `main` runs `run_all_evals` exactly
once, logs one line per metric plus one structured line carrying the full
score mapping, then exits successfully having started no epoch; in training
mode the number of epochs started is at most the configured maximum. -/
theorem C6_eval_once_then_exit (cfg : MainCfg) (fuel : Nat) (st : TrainerState)
    (hdev : checkDevice cfg = true) :
    (cfg.eval_only = true →
      mainProgram cfg fuel st = RunResult.ok (evalTraceFull cfg) ∧
      (evalTraceFull cfg).countP isRunAllEvals = 1 ∧
      (evalTraceFull cfg).countP isLogMetric = (cfg.evalScores 0).length ∧
      (evalTraceFull cfg).countP isLogJson = 1 ∧
      MainEvent.log_json (cfg.evalScores 0) ∈ evalTraceFull cfg ∧
      (evalTraceFull cfg).getLast? = some MainEvent.exit_ok ∧
      (evalTraceFull cfg).countP isEpochStart = 0) ∧
    (cfg.eval_only = false → ∀ evs, mainProgram cfg fuel st = RunResult.ok evs →
      evs.countP isEpochStart ≤ cfg.max_epoch) := by
  obtain ⟨c1, c2, c3, c5⟩ := evalTraceFull_counts cfg
  constructor
  · intro he
    refine ⟨?_, c1, c2, c3, ?_, ?_, c5⟩
    · rw [mainProgram, hdev, he]
      simp [evalTraceFull]
    · simp [evalTraceFull, evalOnlyTrace, prologue, builds]
    · have hsplit : evalTraceFull cfg =
          (prologue ++ builds ++ (MainEvent.run_all_evals ::
            metricLines (cfg.evalScores 0) ++
            [MainEvent.log_json (cfg.evalScores 0)])) ++ [MainEvent.exit_ok] := by
        simp [evalTraceFull, evalOnlyTrace]
      rw [hsplit, getLast?_append_singleton]
  · intro he evs h
    rw [mainProgram, hdev, he] at h
    simp only [reduceIte] at h
    cases ht : trainEpochs cfg fuel 0 cfg.max_epoch st with
    | none =>
      rw [ht] at h
      simp at h
    | some evs2 =>
      rw [ht] at h
      simp only [Bool.false_eq_true, if_false] at h
      injection h with h1
      rw [← h1, List.countP_append, List.countP_append,
        trainEpochs_countP_epoch_start cfg fuel cfg.max_epoch 0 st evs2 ht]
      have p0 : prologue.countP isEpochStart = 0 := by decide
      have b0 : builds.countP isEpochStart = 0 := by decide
      omega

/-- Witness for C6 at the concrete evaluation-only configuration: one
evaluation call, no epoch started, and the computed trace is produced. -/
theorem C6_witness :
    mainProgram wMainEval 5 wSt0 = RunResult.ok (evalTraceFull wMainEval) ∧
    (evalTraceFull wMainEval).countP isRunAllEvals = 1 ∧
    (evalTraceFull wMainEval).countP isEpochStart = 0 :=
  have hc := (C6_eval_once_then_exit wMainEval 5 wSt0 (by decide)).1 rfl
  ⟨hc.1, hc.2.1, hc.2.2.2.2.2.2⟩

/-- Claim C7: if CPU-only and multi-GPU execution are both requested, or an
accelerator is requested but unavailable, `main` fails fatally right after
the prologue: no environment, module, trainer, or evaluator construction
event occurs in the emitted trace. -/
theorem C7_device_check_fails_fast (cfg : MainCfg) (fuel : Nat) (st : TrainerState)
    (h : (cfg.cpu = true ∧ cfg.multi_gpu = true) ∨
      (cfg.cpu = false ∧ cfg.cuda_available = false)) :
    mainProgram cfg fuel st = RunResult.fatal prologue ∧
    MainEvent.build_env ∉ prologue ∧ MainEvent.build_modules ∉ prologue ∧
    MainEvent.build_trainer ∉ prologue ∧ MainEvent.build_evaluator ∉ prologue := by
  have hdev : checkDevice cfg = false := by
    rcases h with ⟨h1, h2⟩ | ⟨h1, h2⟩ <;> simp [checkDevice, h1, h2]
  refine ⟨?_, by decide, by decide, by decide, by decide⟩
  rw [mainProgram, hdev]
  simp

/-- Witness for C7: requesting CPU and multi-GPU together yields a fatal stop
with only the prologue emitted. -/
theorem C7_witness :
    mainProgram wMainBad 5 wSt0 = RunResult.fatal prologue :=
  (C7_device_check_fails_fast wMainBad 5 wSt0 (Or.inl ⟨rfl, rfl⟩)).1

/-- Claim C8: in one completed training epoch, the evaluation pass, the
best-model save, the periodic save, and the end-of-epoch stopping-criterion
update each occur exactly once and in that order when the process is the
master, and none of them occurs on a non-master process. -/
theorem C8_master_only_epoch_end (cfg : MainCfg) (fuel : Nat) (st : TrainerState)
    (k : Nat) (st' : TrainerState) (evs : List MainEvent)
    (h : epochBody cfg fuel st k = some (st', evs)) :
    (cfg.is_master = true →
      evs.countP isRunAllEvals = 1 ∧ evs.countP isSaveBest = 1 ∧
      evs.countP isSavePeriodic = 1 ∧ evs.countP isEndEpoch = 1 ∧
      List.Sublist [MainEvent.run_all_evals, MainEvent.save_best_model,
        MainEvent.save_periodic, MainEvent.end_epoch] evs) ∧
    (cfg.is_master = false →
      evs.countP isRunAllEvals = 0 ∧ evs.countP isSaveBest = 0 ∧
      evs.countP isSavePeriodic = 0 ∧ evs.countP isEndEpoch = 0) := by
  obtain ⟨wk, hr, rfl⟩ := epochBody_some h
  have w1 : (wk.map MainEvent.work).countP isRunAllEvals = 0 :=
    countP_map_eq_zero _ _ _ (fun e => rfl)
  have w2 : (wk.map MainEvent.work).countP isSaveBest = 0 :=
    countP_map_eq_zero _ _ _ (fun e => rfl)
  have w3 : (wk.map MainEvent.work).countP isSavePeriodic = 0 :=
    countP_map_eq_zero _ _ _ (fun e => rfl)
  have w4 : (wk.map MainEvent.work).countP isEndEpoch = 0 :=
    countP_map_eq_zero _ _ _ (fun e => rfl)
  have e1 : isRunAllEvals MainEvent.epoch_start = false := rfl
  have e2 : isSaveBest MainEvent.epoch_start = false := rfl
  have e3 : isSavePeriodic MainEvent.epoch_start = false := rfl
  have e4 : isEndEpoch MainEvent.epoch_start = false := rfl
  obtain ⟨m1, m2, m3, m4, _⟩ := masterBlock_counts (cfg.evalScores k)
  constructor
  · intro hm
    rw [hm]
    simp only [reduceIte]
    refine ⟨?_, ?_, ?_, ?_, ?_⟩
    · simp [List.countP_cons, List.countP_append, w1, m1, e1]
    · simp [List.countP_cons, List.countP_append, w2, m2, e2]
    · simp [List.countP_cons, List.countP_append, w3, m3, e3]
    · simp [List.countP_cons, List.countP_append, w4, m4, e4]
    · exact List.Sublist.cons _ ((quad_sublist_masterBlock _).trans
        (List.sublist_append_right _ _))
  · intro hm
    rw [hm]
    simp only [Bool.false_eq_true, if_false]
    refine ⟨?_, ?_, ?_, ?_⟩
    · simp [List.countP_cons, List.countP_append, w1, e1]
    · simp [List.countP_cons, List.countP_append, w2, e2]
    · simp [List.countP_cons, List.countP_append, w3, e3]
    · simp [List.countP_cons, List.countP_append, w4, e4]

/-- Witness for C8 at the concrete master-process epoch: each end-of-epoch
action occurs exactly once and in source order. -/
theorem C8_witness :
    wEpochTrace.countP isRunAllEvals = 1 ∧ wEpochTrace.countP isSaveBest = 1 ∧
    wEpochTrace.countP isSavePeriodic = 1 ∧ wEpochTrace.countP isEndEpoch = 1 ∧
    List.Sublist [MainEvent.run_all_evals, MainEvent.save_best_model,
      MainEvent.save_periodic, MainEvent.end_epoch] wEpochTrace :=
  (C8_master_only_epoch_end wMain 5 wSt0 0 wEpochState wEpochTrace (by decide)).1 rfl

end TrainSpec
